import Mathlib

/-!
Verification of the serial-arbiter core.

Shallow embedding of the repository's three subsystems:

* `src/serial_port.rs` — the POSIX I/O layer (`port_open`, `port_poll`,
  `port_read`, `port_write`, `port_send`, `port_recv`);
* `src/connection.rs` — the `Connection` lifecycle / reconnect policy;
* `src/lib.rs` — the `WorkerThread` request servicing and the staging
  buffer (`collect_from_buff` and friends) plus the `Arbiter` facade.

Bytes are modelled as `Nat` (values of `u8`), instants and durations as
`Nat` ticks (`Instant` is monotone and only compared/added in the code),
and file handles as `Nat` identifiers.  The operating system is modelled
as an oracle: each syscall's outcome is an input to the embedded
function (a `PollSys` value for one `poll(2)` call, a `ReadRes` for one
`read(2)` call, and so on).  The I/O loops consume one oracle entry per
iteration, so they are structurally recursive; an exhausted oracle
yields `none` ("the model run was too short"), and every theorem is
stated for runs the oracle covers.
-/

/-- The `io::ErrorKind` values that the crate constructs or inspects, plus
`other` for `io::Error::other(msg)` and OS errors of any other kind.
Mirrors the kinds used in `connection.rs` and `serial_port.rs`. -/
inductive ErrKind where
  | quotaExceeded
  | invalidFilename
  | timedOut
  | interrupted
  | wouldBlock
  | other (msg : String)
  deriving DecidableEq, Repr

/-- The `errno` values `poll(2)` may set on failure (POSIX: EFAULT,
EINTR, EINVAL, ENOMEM).  `port_poll` converts a failure into
`io::Error::from(errno)`; none of these maps to the `TimedOut` kind. -/
inductive PollErrno where
  | efault
  | eintr
  | einval
  | enomem
  deriving DecidableEq, Repr

/-- Map `io::Error::from(errno)` restricted to the poll errnos:
`EINTR` has kind `Interrupted`; the rest are not `TimedOut`. -/
def PollErrno.toErr : PollErrno → ErrKind
  | .eintr => .interrupted
  | .efault => .other "EFAULT"
  | .einval => .other "EINVAL"
  | .enomem => .other "ENOMEM"

/-- The `revents` flags of the single `pollfd`, as inspected by
`port_poll` in `serial_port.rs`. -/
structure Revents where
  pollhup : Bool
  pollnval : Bool
  pollerr : Bool
  pollout : Bool
  pollwrnorm : Bool
  pollwrband : Bool
  pollin : Bool
  pollrdnorm : Bool
  pollrdband : Bool
  pollpri : Bool
  deriving DecidableEq, Repr

/-- Outcome of one `poll(2)` syscall, as the oracle reports it:
failure with an errno, a zero return (timeout), or a positive return
carrying the `revents` of the fd (`none` when the binding reports no
revent flags, which `port_poll` maps to `TimedOut`). -/
inductive PollSys where
  | fail (e : PollErrno)
  | zero
  | ready (r : Option Revents)
  deriving DecidableEq, Repr

/-- Enum `PollKind` from `serial_port.rs`: which readiness the caller asks for.
It selects the input flags handed to the kernel; the classification of
`revents` in `port_poll` does not depend on it. -/
inductive PollKind where
  | forRead
  | forWrite
  deriving DecidableEq, Repr

/-- Enum `PollResult` from `serial_port.rs`. -/
inductive PollResult where
  | timedOut
  | readReady
  | writeReady
  | undocumented
  deriving DecidableEq, Repr

/-- Function `port_poll` from `serial_port.rs`.  The `kind` picks the input flags
and the `deadline` only determines the kernel timeout (both are folded
into the oracle's `PollSys` outcome); the returned classification of
`revents` follows the source's priority order: POLLHUP error, POLLNVAL
error, POLLERR error, then write-ready flags, then read-ready flags,
else `undocumented`. -/
def port_poll (_kind : PollKind) (_deadline : Option Nat) (sys : PollSys) :
    Except ErrKind PollResult :=
  match sys with
  | .fail e => .error e.toErr
  | .zero => .ok .timedOut
  | .ready none => .ok .timedOut
  | .ready (some r) =>
    if r.pollhup then .error (.other "POLLHUP: Device has been disconnected")
    else if r.pollnval then .error (.other "POLLNVAL: Invalid fd member")
    else if r.pollerr then .error (.other "POLLERR: An error has occurred")
    else if r.pollout || r.pollwrnorm || r.pollwrband then .ok .writeReady
    else if r.pollin || r.pollrdnorm || r.pollrdband || r.pollpri then .ok .readReady
    else .ok .undocumented

/-- Outcome of one `read(2)` syscall inside `port_read`'s loop:
`got []` is `Ok(0)` (EOF), `got bs` with `bs ≠ []` is `Ok(n)` delivering
the bytes `bs`, and `rerr k` is `Err` of kind `k`. -/
inductive ReadRes where
  | got (bs : List Nat)
  | rerr (k : ErrKind)
  deriving DecidableEq, Repr

/-- Function `port_read` from `serial_port.rs`: loop reading chunks and extending
`data`, stopping successfully on EOF / `Interrupted` / `TimedOut` /
`WouldBlock`, propagating any other error.  Returns the result together
with the buffer as mutated so far (the Rust buffer is `&mut`, so bytes
read before an error are kept). -/
def port_read : List ReadRes → List Nat → Option (Except ErrKind Unit × List Nat)
  | [], _ => none
  | .got bs :: rest, data =>
    if bs.isEmpty then some (.ok (), data)
    else port_read rest (data ++ bs)
  | .rerr k :: _, data =>
    if k = .interrupted ∨ k = .timedOut ∨ k = .wouldBlock then some (.ok (), data)
    else some (.error k, data)

/-- Outcome of the single `write` attempt in `port_write`: `wrote n` is
`Ok(n)` (`n = 0` is the ignored EOF case; the `Write` contract gives
`n ≤ data.length`), `werr k` is `Err` of kind `k`. -/
inductive WriteRes where
  | wrote (n : Nat)
  | werr (k : ErrKind)
  deriving DecidableEq, Repr

/-- Function `port_write` from `serial_port.rs`: one write attempt; on `Ok(n)`
the written prefix is drained from the deque; `Interrupted` /
`TimedOut` / `WouldBlock` mean "no progress, not an error"; other
errors propagate.  Returns `(written, remaining)`. -/
def port_write (w : WriteRes) (data : List Nat) :
    Except ErrKind (List Nat × List Nat) :=
  match w with
  | .wrote n => .ok (data.take n, data.drop n)
  | .werr k =>
    if k = .interrupted ∨ k = .timedOut ∨ k = .wouldBlock then .ok ([], data)
    else .error k

/-- Oracle entry for one iteration of the `port_send` loop: the poll
outcome, the read outcomes consumed if the poll says `ReadReady`, the
write outcome consumed if it says `WriteReady`, and the value of
`Instant::now()` at the deadline check at the bottom of the loop. -/
structure SendStep where
  poll : PollSys
  reads : List ReadRes
  write : WriteRes
  nowAfter : Nat
  deriving DecidableEq, Repr

/-- The loop of `port_send` from `serial_port.rs`, with the wire trace
made explicit: `wire` accumulates every byte handed to `write` so far.
Each iteration polls for write readiness (draining incidental input on
`ReadReady`), then — regardless of the poll outcome — returns success
if the send deque is empty, else a `TimedOut` error if the deadline has
passed.  The three trailing checks are duplicated per poll branch here
because the source writes them once after the `match`. -/
def port_send_go : List SendStep → List Nat → List Nat → Nat → List Nat →
    Option (Except ErrKind Unit × List Nat × List Nat)
  | [], _, _, _, _ => none
  | s :: rest, send, recv, deadline, wire =>
    match port_poll .forWrite (some deadline) s.poll with
    | .error e => some (.error e, recv, wire)
    | .ok .timedOut =>
      if send.isEmpty then some (.ok (), recv, wire)
      else if deadline ≤ s.nowAfter then some (.error .timedOut, recv, wire)
      else port_send_go rest send recv deadline wire
    | .ok .readReady =>
      match port_read s.reads recv with
      | none => none
      | some (.error e, recv') => some (.error e, recv', wire)
      | some (.ok _, recv') =>
        if send.isEmpty then some (.ok (), recv', wire)
        else if deadline ≤ s.nowAfter then some (.error .timedOut, recv', wire)
        else port_send_go rest send recv' deadline wire
    | .ok .writeReady =>
      match port_write s.write send with
      | .error e => some (.error e, recv, wire)
      | .ok (written, remaining) =>
        if remaining.isEmpty then some (.ok (), recv, wire ++ written)
        else if deadline ≤ s.nowAfter then some (.error .timedOut, recv, wire ++ written)
        else port_send_go rest remaining recv deadline (wire ++ written)
    | .ok .undocumented =>
      if send.isEmpty then some (.ok (), recv, wire)
      else if deadline ≤ s.nowAfter then some (.error .timedOut, recv, wire)
      else port_send_go rest send recv deadline wire

/-- Function `port_send` from `serial_port.rs`: copies the payload slice into a
deque and runs the loop.  Result carries the final staging buffer and
the wire trace (bytes actually written, in order). -/
def port_send (steps : List SendStep) (send recv : List Nat) (deadline : Nat) :
    Option (Except ErrKind Unit × List Nat × List Nat) :=
  port_send_go steps send recv deadline []

/-- Oracle entry for one iteration of the `port_recv` loop. -/
structure RecvStep where
  poll : PollSys
  reads : List ReadRes
  deriving DecidableEq, Repr

/-- Function `port_recv` from `serial_port.rs`: poll for read readiness with the
caller's deadline; `TimedOut` returns success immediately; `ReadReady`
drains via `port_read`; `WriteReady` / `Undocumented` make no progress;
after a non-returning iteration, if the delimiter is present in the
buffer, return success.  Returns the result with the final buffer. -/
def port_recv : List RecvStep → List Nat → Option Nat → Option Nat →
    Option (Except ErrKind Unit × List Nat)
  | [], _, _, _ => none
  | s :: rest, buff, until_, deadline =>
    match port_poll .forRead deadline s.poll with
    | .error e => some (.error e, buff)
    | .ok .timedOut => some (.ok (), buff)
    | .ok .readReady =>
      match port_read s.reads buff with
      | none => none
      | some (.error e, buff') => some (.error e, buff')
      | some (.ok _, buff') =>
        match until_ with
        | some d => if d ∈ buff' then some (.ok (), buff') else port_recv rest buff' until_ deadline
        | none => port_recv rest buff' until_ deadline
    | .ok .writeReady =>
      match until_ with
      | some d => if d ∈ buff then some (.ok (), buff) else port_recv rest buff until_ deadline
      | none => port_recv rest buff until_ deadline
    | .ok .undocumented =>
      match until_ with
      | some d => if d ∈ buff then some (.ok (), buff) else port_recv rest buff until_ deadline
      | none => port_recv rest buff until_ deadline

/-! ## Connection (`src/connection.rs`) -/

/-- The fields of `ConnectionInner` from `connection.rs`.  The path is a
string, the open file handle an abstract identifier, instants and
durations are `Nat` ticks. -/
structure ConnState where
  path : Option String
  file : Option Nat
  last_conn_attempt : Option Nat
  cool_time : Option Nat
  deriving DecidableEq, Repr

/-- Constant `DEFAULT_COOLOFF_DURATION` (1 s), in the model's ms ticks. -/
def defaultCooloff : Nat := 1000

/-- Function `Connection::new`. -/
def connNew : ConnState :=
  { path := none, file := none, last_conn_attempt := none,
    cool_time := some defaultCooloff }

/-- Function `Connection::open` from `connection.rs`.  `now` is `Instant::now()`
at the cool-off check, `osOpen` the oracle outcome of `port_open` (a
fresh handle or an OS error).  Returns the result, the new state, and
whether the OS open routine (`port_open`) was invoked.

Source order: return the held file if any; fail with `QuotaExceeded`
when `cool_time` is set and `last_conn_attempt + cool_time > now`;
when `cool_time` is set record `last_conn_attempt = now` before the
attempt; fail with `InvalidFilename` when no path is set; otherwise
invoke `port_open`, and on success store the handle and clear
`last_conn_attempt`. -/
def connOpen (st : ConnState) (now : Nat) (osOpen : Except ErrKind Nat) :
    Except ErrKind Nat × ConnState × Bool :=
  match st.file with
  | some f => (.ok f, st, false)
  | none =>
    let cooling : Bool :=
      match st.cool_time, st.last_conn_attempt with
      | some c, some la => decide (now < la + c)
      | _, _ => false
    if cooling then (.error .quotaExceeded, st, false)
    else
      let st1 := if st.cool_time.isSome
        then { st with last_conn_attempt := some now } else st
      match st1.path with
      | none => (.error .invalidFilename, st1, false)
      | some _ =>
        match osOpen with
        | .ok f => (.ok f, { st1 with file := some f, last_conn_attempt := none }, true)
        | .error e => (.error e, st1, true)

/-- Function `Connection::close`: clears both the handle and `last_conn_attempt`. -/
def connClose (st : ConnState) : ConnState :=
  { st with last_conn_attempt := none, file := none }

/-- Function `Connection::set_path`: assigns the path and drops any handle. -/
def connSetPath (st : ConnState) (p : String) : ConnState :=
  { st with path := some p, file := none }

/-- Function `Connection::is_open`. -/
def connIsOpen (st : ConnState) : Bool :=
  st.file.isSome

/-- Function `Connection::set_cooloff_duration`. -/
def connSetCooloff (st : ConnState) (cooloff : Option Nat) : ConnState :=
  { st with cool_time := cooloff }

/-! ## Staging-buffer collection (`src/lib.rs`) -/

/-- Enum `CollectKind` from `lib.rs`. -/
inductive CollectKind where
  | everything
  | untilOrEverything (d : Nat)
  | untilOrNothing (d : Nat)
  deriving DecidableEq, Repr

/-- Model of `self.buff.iter().position(|x| x == &delimiter)`: index of the first
occurrence. -/
def position (d : Nat) : List Nat → Option Nat
  | [] => none
  | x :: xs => if x = d then some 0 else (position d xs).map (· + 1)

/-- Function `WorkerThread::collect_from_buff_everything`: take the whole buffer,
`none` when empty.  Returns `(collected, buffer-after)`. -/
def collect_from_buff_everything (buff : List Nat) : Option (List Nat) × List Nat :=
  if buff.isEmpty then (none, buff)
  else (some buff, [])

/-- Function `WorkerThread::collect_from_buff_count`: take the first `count`
bytes; the whole buffer when `buff.length ≤ count`; `none` when empty. -/
def collect_from_buff_count (buff : List Nat) (count : Nat) :
    Option (List Nat) × List Nat :=
  if buff.isEmpty then (none, buff)
  else if buff.length ≤ count then collect_from_buff_everything buff
  else (some (buff.take count), buff.drop count)

/-- Function `WorkerThread::collect_from_buff` from `lib.rs`. -/
def collect_from_buff (buff : List Nat) (k : CollectKind) :
    Option (List Nat) × List Nat :=
  if buff.isEmpty then (none, buff)
  else
    match k with
    | .everything => collect_from_buff_everything buff
    | .untilOrEverything d =>
      match position d buff with
      | some pos => collect_from_buff_count buff (pos + 1)
      | none => collect_from_buff_everything buff
    | .untilOrNothing d =>
      match position d buff with
      | some pos => collect_from_buff_count buff (pos + 1)
      | none => (none, buff)

/-! ## Worker servicing (`src/lib.rs`) -/

/-- Oracle for one `receive_from_port` call: the time and OS outcome of
the `Connection::open` call, and the per-iteration entries consumed by
`port_recv`. -/
structure IOEnv where
  now : Nat
  osOpen : Except ErrKind Nat
  recvSteps : List RecvStep
  deriving Repr

/-- Result of `WorkerThread::receive_from_port`: the `io::Result`, the
connection state and staging buffer afterwards, whether `port_open` was
invoked, and whether the device was polled (`port_recv` ran). -/
structure IOOutcome where
  result : Except ErrKind Unit
  conn : ConnState
  buff : List Nat
  osInvoked : Bool
  polled : Bool
  deriving Repr

/-- Function `WorkerThread::receive_from_port` from `lib.rs`: open the connection
(propagating errors), run `port_recv` on the staging buffer, and on an
I/O error close the connection. -/
def receive_from_port (conn : ConnState) (buff : List Nat) (until_ : Option Nat)
    (deadline : Option Nat) (env : IOEnv) : Option IOOutcome :=
  match connOpen conn env.now env.osOpen with
  | (.error e, conn', inv) => some ⟨.error e, conn', buff, inv, false⟩
  | (.ok _, conn', inv) =>
    match port_recv env.recvSteps buff until_ deadline with
    | none => none
    | some (.ok _, buff') => some ⟨.ok (), conn', buff', inv, true⟩
    | some (.error e, buff') => some ⟨.error e, connClose conn', buff', inv, true⟩

/-- The `Err(RecvTimeoutError::Timeout)` branch of
`WorkerThread::process`: `let _ = self.receive_from_port(None, None)` —
the result is discarded, only the state effects remain.  Returns
`(conn, buff, osInvoked, polled)`. -/
def timeoutBranch (conn : ConnState) (buff : List Nat) (env : IOEnv) :
    Option (ConnState × List Nat × Bool × Bool) :=
  match receive_from_port conn buff none none env with
  | none => none
  | some o => some (o.conn, o.buff, o.osInvoked, o.polled)

/-- Oracle for one `transmit_to_port` call. -/
structure SendEnv where
  now : Nat
  osOpen : Except ErrKind Nat
  steps : List SendStep
  deriving Repr

/-- Result of `WorkerThread::transmit_to_port`, with the wire trace of
bytes written to the device during the call. -/
structure SendOutcome where
  result : Except ErrKind Unit
  conn : ConnState
  buff : List Nat
  wire : List Nat
  osInvoked : Bool
  deriving Repr

/-- Function `WorkerThread::transmit_to_port` from `lib.rs`: open the connection
(propagating errors), run `port_send` with the payload and deadline
(staging incidental input into the buffer), and on an I/O error close
the connection. -/
def transmit_to_port (conn : ConnState) (buff data : List Nat) (deadline : Nat)
    (env : SendEnv) : Option SendOutcome :=
  match connOpen conn env.now env.osOpen with
  | (.error e, conn', inv) => some ⟨.error e, conn', buff, [], inv⟩
  | (.ok _, conn', inv) =>
    match port_send env.steps data buff deadline with
    | none => none
    | some (.ok _, buff', wire) => some ⟨.ok (), conn', buff', wire, inv⟩
    | some (.error e, buff', wire) => some ⟨.error e, connClose conn', buff', wire, inv⟩

/-- Result of the `Request::Receive` arm of `WorkerThread::process`:
the reply sent on the response channel, the state afterwards, and
whether `Connection::open`, the OS open, and the device poll loop were
reached. -/
structure RecvOutcome where
  reply : Except ErrKind (Option (List Nat))
  conn : ConnState
  buff : List Nat
  openCalled : Bool
  osInvoked : Bool
  polled : Bool
  deriving Repr

/-- The slow path of the `Request::Receive` arm: `receive_from_port`,
then on success collect with `Everything` (no delimiter) or
`UntilOrEverything` (delimiter). -/
def handleReceiveSlow (conn : ConnState) (buff : List Nat) (until_ : Option Nat)
    (deadline : Option Nat) (env : IOEnv) : Option RecvOutcome :=
  match receive_from_port conn buff until_ deadline env with
  | none => none
  | some o =>
    match o.result with
    | .error e => some ⟨.error e, o.conn, o.buff, true, o.osInvoked, o.polled⟩
    | .ok _ =>
      let kind := match until_ with
        | none => CollectKind.everything
        | some d => CollectKind.untilOrEverything d
      let (data, buff') := collect_from_buff o.buff kind
      some ⟨.ok data, o.conn, buff', true, o.osInvoked, o.polled⟩

/-- The `Request::Receive` arm of `WorkerThread::process` from `lib.rs`:
with a delimiter, first try `collect_from_buff (UntilOrNothing d)` and
reply immediately on success (no device I/O at all); otherwise fall
through to the slow path. -/
def handleReceive (conn : ConnState) (buff : List Nat) (until_ : Option Nat)
    (deadline : Option Nat) (env : IOEnv) : Option RecvOutcome :=
  match until_ with
  | some d =>
    match collect_from_buff buff (.untilOrNothing d) with
    | (some data, buff') => some ⟨.ok (some data), conn, buff', false, false, false⟩
    | (none, buff') => handleReceiveSlow conn buff' (some d) deadline env
  | none => handleReceiveSlow conn buff none deadline env

/-- The facade's `Arbiter::open` from `lib.rs`: `set_path` then
`Connection::open`, discarding the handle. -/
def arbiterOpen (st : ConnState) (p : String) (now : Nat)
    (osOpen : Except ErrKind Nat) : Except ErrKind Unit × ConnState × Bool :=
  let st1 := connSetPath st p
  match connOpen st1 now osOpen with
  | (.ok _, st2, inv) => (.ok (), st2, inv)
  | (.error e, st2, inv) => (.error e, st2, inv)

/-- A run of consecutive `Connection::open` calls (no intervening close
or other mutation): each entry is the call's `(now, port_open outcome)`;
the result lists each call's `(result, osInvoked)`. -/
def connOpenRuns : ConnState → List (Nat × Except ErrKind Nat) →
    List (Except ErrKind Nat × Bool) × ConnState
  | st, [] => ([], st)
  | st, (now, os) :: rest =>
    match connOpen st now os with
    | (r, st', inv) =>
      match connOpenRuns st' rest with
      | (rs, stf) => ((r, inv) :: rs, stf)

/-- The Worker servicing a list of `Transmit` requests back to back, as
the single worker thread does (the zero-capacity request channel hands
it one request at a time).  Each request is `(payload, deadline, env)`;
the result collects the replies, the final state, and the concatenated
wire trace. -/
def workerTransmits : ConnState → List Nat → List (List Nat × Nat × SendEnv) →
    Option (List (Except ErrKind Unit) × ConnState × List Nat × List Nat)
  | conn, buff, [] => some ([], conn, buff, [])
  | conn, buff, (data, dl, env) :: rest =>
    match transmit_to_port conn buff data dl env with
    | none => none
    | some o =>
      match workerTransmits o.conn o.buff rest with
      | none => none
      | some (rs, c, b, w) => some (o.result :: rs, c, b, o.wire ++ w)

/-! ## Helper lemmas -/

/-- Lemma: `position` finds the delimiter right after a prefix that lacks it. -/
theorem position_append_not_mem (d : Nat) (pre post : List Nat) (h : d ∉ pre) :
    position d (pre ++ d :: post) = some pre.length := by
  induction pre with
  | nil => simp [position]
  | cons x xs ih =>
    have hx : ¬ x = d := by
      intro hxd; exact h (by simp [hxd])
    have hxs : d ∉ xs := fun hm => h (List.mem_cons_of_mem _ hm)
    simp [position, hx, ih hxs]

/-- Lemma: `position` misses a byte that is not in the buffer. -/
theorem position_none_not_mem (d : Nat) (buff : List Nat) (h : d ∉ buff) :
    position d buff = none := by
  induction buff with
  | nil => rfl
  | cons x xs ih =>
    have hx : ¬ x = d := by
      intro hxd; exact h (by simp [hxd])
    have hxs : d ∉ xs := fun hm => h (List.mem_cons_of_mem _ hm)
    simp [position, hx, ih hxs]

/-- Lemma: `collect_from_buff_count` at a split point returns the prefix and
keeps the suffix. -/
theorem collect_count_at_split (pre post : List Nat) (d : Nat) :
    collect_from_buff_count (pre ++ d :: post) (pre.length + 1) =
      (some (pre ++ [d]), post) := by
  have hb : ((pre ++ d :: post).isEmpty) = false := by
    simp
  have hassoc : pre ++ d :: post = (pre ++ [d]) ++ post := by simp
  unfold collect_from_buff_count collect_from_buff_everything
  rw [hb]
  simp only [Bool.false_eq_true, if_false]
  by_cases hlen : (pre ++ d :: post).length ≤ pre.length + 1
  · have hpl : pre.length + (post.length + 1) ≤ pre.length + 1 := by
      rw [List.length_append, List.length_cons] at hlen
      exact hlen
    have hpost : post = [] := List.eq_nil_of_length_eq_zero (by omega)
    subst hpost
    simp
  · rw [if_neg hlen, hassoc]
    have hl : (pre ++ [d]).length = pre.length + 1 := by simp
    rw [List.take_left' hl, List.drop_left' hl]

/-- The count variant preserves content generally. -/
theorem collect_count_split_exact (buff : List Nat) (c : Nat)
    (hb : buff ≠ []) (hc : 0 < c) :
    buff = ((collect_from_buff_count buff c).1).getD [] ++
        (collect_from_buff_count buff c).2 ∧
    (collect_from_buff_count buff c).1 ≠ some [] := by
  have hbe : buff.isEmpty = false := by
    simpa [List.isEmpty_iff] using hb
  unfold collect_from_buff_count collect_from_buff_everything
  rw [hbe]
  simp only [Bool.false_eq_true, if_false]
  by_cases hlen : buff.length ≤ c
  · rw [if_pos hlen]
    constructor
    · simp
    · simpa using hb
  · rw [if_neg hlen]
    constructor
    · simp
    · intro hcon
      simp only [Option.some.injEq] at hcon
      rcases List.take_eq_nil_iff.mp hcon with h | h
      · omega
      · exact hb h

/-- Lemma: `collect_from_buff` with `UntilOrNothing` at a buffer split on the
first delimiter occurrence. -/
theorem collect_untilOrNothing_at_split (pre post : List Nat) (d : Nat)
    (h : d ∉ pre) :
    collect_from_buff (pre ++ d :: post) (.untilOrNothing d) =
      (some (pre ++ [d]), post) := by
  have hb : ((pre ++ d :: post).isEmpty) = false := by simp
  unfold collect_from_buff
  rw [hb]
  simp only [Bool.false_eq_true, if_false]
  rw [position_append_not_mem d pre post h]
  exact collect_count_at_split pre post d

/-- Lemma: `collect_from_buff` with `UntilOrEverything` at a buffer split on
the first delimiter occurrence. -/
theorem collect_untilOrEverything_at_split (pre post : List Nat) (d : Nat)
    (h : d ∉ pre) :
    collect_from_buff (pre ++ d :: post) (.untilOrEverything d) =
      (some (pre ++ [d]), post) := by
  have hb : ((pre ++ d :: post).isEmpty) = false := by simp
  unfold collect_from_buff
  rw [hb]
  simp only [Bool.false_eq_true, if_false]
  rw [position_append_not_mem d pre post h]
  exact collect_count_at_split pre post d

/-! ## Claims -/

/-- C9: `collect_from_buff` splits the staging buffer without loss,
duplication, or reordering: the buffer before the call equals the
returned bytes concatenated with the buffer after the call (the
returned part being empty when the result is `none`), and a `some`
result is never the empty byte sequence. -/
theorem collect_split_exact (buff : List Nat) (k : CollectKind) :
    buff = ((collect_from_buff buff k).1).getD [] ++ (collect_from_buff buff k).2 ∧
    (collect_from_buff buff k).1 ≠ some [] := by
  by_cases hb : buff = []
  · subst hb; cases k <;> simp [collect_from_buff]
  · have hbe : buff.isEmpty = false := by simpa [List.isEmpty_iff] using hb
    cases k with
    | everything =>
      unfold collect_from_buff collect_from_buff_everything
      rw [hbe]
      simp only [Bool.false_eq_true, if_false]
      exact ⟨by simp, by simpa using hb⟩
    | untilOrEverything d =>
      unfold collect_from_buff
      rw [hbe]
      simp only [Bool.false_eq_true, if_false]
      cases hp : position d buff with
      | none =>
        unfold collect_from_buff_everything
        rw [hbe]
        simp only [Bool.false_eq_true, if_false]
        exact ⟨by simp, by simpa using hb⟩
      | some pos => exact collect_count_split_exact buff (pos + 1) hb (by omega)
    | untilOrNothing d =>
      unfold collect_from_buff
      rw [hbe]
      simp only [Bool.false_eq_true, if_false]
      cases hp : position d buff with
      | none => simp
      | some pos => exact collect_count_split_exact buff (pos + 1) hb (by omega)

/-- Witness for `collect_split_exact` at a concrete buffer and kind. -/
theorem collect_split_exact_witness :
    ([1, 2, 7, 3] : List Nat) =
      ((collect_from_buff [1, 2, 7, 3] (.untilOrNothing 7)).1).getD [] ++
        (collect_from_buff [1, 2, 7, 3] (.untilOrNothing 7)).2 ∧
    (collect_from_buff [1, 2, 7, 3] (.untilOrNothing 7)).1 ≠ some [] :=
  collect_split_exact [1, 2, 7, 3] (.untilOrNothing 7)

/-- C4: a Receive that reaches the post-I/O collection step collects
with `Everything` when no delimiter was given and `UntilOrEverything`
with the delimiter otherwise; `Everything` takes the entire buffer and
is `none` exactly when the buffer is empty; `UntilOrEverything` takes
through-and-including the first occurrence of the delimiter when
present, otherwise the entire buffer, and is `none` when the buffer is
empty. -/
theorem post_io_collect_policy :
    (∀ (conn : ConnState) (buff : List Nat) (u dl : Option Nat)
       (env : IOEnv) (o : IOOutcome),
      receive_from_port conn buff u dl env = some o → o.result = .ok () →
      handleReceiveSlow conn buff u dl env =
        some ⟨.ok (collect_from_buff o.buff (match u with
              | none => CollectKind.everything
              | some d => CollectKind.untilOrEverything d)).1,
          o.conn,
          (collect_from_buff o.buff (match u with
              | none => CollectKind.everything
              | some d => CollectKind.untilOrEverything d)).2,
          true, o.osInvoked, o.polled⟩) ∧
    (∀ buff : List Nat, buff ≠ [] →
      collect_from_buff buff .everything = (some buff, [])) ∧
    (∀ d : Nat, collect_from_buff [] .everything = (none, []) ∧
      collect_from_buff [] (.untilOrEverything d) = (none, [])) ∧
    (∀ (buff : List Nat) (d : Nat), buff ≠ [] → d ∉ buff →
      collect_from_buff buff (.untilOrEverything d) = (some buff, [])) ∧
    (∀ (pre post : List Nat) (d : Nat), d ∉ pre →
      collect_from_buff (pre ++ d :: post) (.untilOrEverything d) =
        (some (pre ++ [d]), post)) := by
  refine ⟨?_, ?_, ?_, ?_, ?_⟩
  · intro conn buff u dl env o heq hres
    unfold handleReceiveSlow
    rw [heq]
    dsimp only
    rw [hres]
  · intro buff hb
    have hbe : buff.isEmpty = false := by simpa [List.isEmpty_iff] using hb
    unfold collect_from_buff collect_from_buff_everything
    rw [hbe]
    simp only [Bool.false_eq_true, if_false]
  · intro d
    exact ⟨rfl, rfl⟩
  · intro buff d hb hd
    have hbe : buff.isEmpty = false := by simpa [List.isEmpty_iff] using hb
    unfold collect_from_buff collect_from_buff_everything
    rw [hbe]
    simp only [Bool.false_eq_true, if_false]
    rw [position_none_not_mem d buff hd]
  · intro pre post d h
    exact collect_untilOrEverything_at_split pre post d h

/-- Witness for `post_io_collect_policy` at concrete inputs. -/
theorem post_io_collect_policy_witness :
    collect_from_buff ([1, 2] ++ 7 :: [9]) (.untilOrEverything 7) =
      (some ([1, 2] ++ [7]), [9]) :=
  post_io_collect_policy.2.2.2.2 [1, 2] [9] 7 (by decide)

/-- C3: the Receive fast path — when a delimiter is given and the
staging buffer already contains it, the Worker replies immediately with
the prefix of the buffer through and including the first occurrence of
the delimiter, removes exactly that prefix from the buffer, leaves the
connection untouched, and performs no device I/O: `Connection::open`
is not called, the OS open routine is not invoked, and the device is
not polled. -/
theorem receive_fast_path_delimiter (conn : ConnState) (d : Nat)
    (dl : Option Nat) (env : IOEnv) (pre post : List Nat) (hpre : d ∉ pre) :
    handleReceive conn (pre ++ d :: post) (some d) dl env =
      some ⟨.ok (some (pre ++ [d])), conn, post, false, false, false⟩ := by
  unfold handleReceive
  dsimp only
  rw [collect_untilOrNothing_at_split pre post d hpre]

/-- Witness for `receive_fast_path_delimiter` at a concrete buffer. -/
theorem receive_fast_path_delimiter_witness :
    handleReceive connNew ([1, 2] ++ 7 :: [3]) (some 7) none ⟨0, .ok 1, []⟩ =
      some ⟨.ok (some ([1, 2] ++ [7])), connNew, [3], false, false, false⟩ :=
  receive_fast_path_delimiter connNew 7 none ⟨0, .ok 1, []⟩ [1, 2] [3] (by decide)

/-- During an active cool-off window, `Connection::open` fails with
`QuotaExceeded`, does not invoke the OS, and leaves the state intact. -/
theorem connOpen_quota (st : ConnState) (C t0 now : Nat)
    (os : Except ErrKind Nat) (hfile : st.file = none)
    (hcool : st.cool_time = some C) (hlast : st.last_conn_attempt = some t0)
    (hnow : now < t0 + C) :
    connOpen st now os = (.error .quotaExceeded, st, false) := by
  unfold connOpen
  rw [hfile, hcool, hlast]
  simp [hnow]

/-- C1: with `cool_time = C` set, an OS-invoked `open()` attempt that
fails at `t0` leaves no handle and `last_conn_attempt = t0`; from such a
state, every subsequent `open()` at a time `t < t0 + C` — with no
intervening successful open or close — fails with `QuotaExceeded`
without invoking the OS open routine, leaving the state unchanged. -/
theorem cooloff_window_quota :
    (∀ (st : ConnState) (C t0 : Nat) (os : Except ErrKind Nat) (e : ErrKind)
       (st' : ConnState), st.cool_time = some C →
      connOpen st t0 os = (.error e, st', true) →
      st'.file = none ∧ st'.last_conn_attempt = some t0 ∧
        st'.cool_time = some C) ∧
    (∀ (st : ConnState) (C t0 : Nat), st.file = none →
      st.cool_time = some C → st.last_conn_attempt = some t0 →
      ∀ calls : List (Nat × Except ErrKind Nat),
        (∀ c ∈ calls, t0 ≤ c.1 ∧ c.1 < t0 + C) →
        connOpenRuns st calls =
          (calls.map (fun _ => (Except.error ErrKind.quotaExceeded, false)), st)) := by
  constructor
  · intro st C t0 os e st' hcool h
    unfold connOpen at h
    split at h
    · simp at h
    · rename_i hf
      dsimp only at h
      split at h
      · simp at h
      · split at h
        · simp at h
        · split at h
          · simp at h
          · injection h with h1 h2
            injection h2 with h2 h3
            subst h2
            refine ⟨?_, ?_, ?_⟩ <;> simp [hcool, hf]
  · intro st C t0 hfile hcool hlast calls
    induction calls with
    | nil => intro _; simp [connOpenRuns]
    | cons c rest ih =>
      intro hcalls
      obtain ⟨cn, cos⟩ := c
      have hc : cn < t0 + C := (hcalls (cn, cos) (by simp)).2
      have hstep := connOpen_quota st C t0 cn cos hfile hcool hlast hc
      simp only [connOpenRuns, hstep, List.map_cons]
      rw [ih (fun x hx => hcalls x (by simp [hx]))]

/-- Witness for `cooloff_window_quota` at a concrete state and calls. -/
theorem cooloff_window_quota_witness :
    connOpenRuns ⟨some "p", none, some 5, some 10⟩
        [(6, .ok 1), (14, .error (.other "E"))] =
      ([(Except.error ErrKind.quotaExceeded, false),
        (Except.error ErrKind.quotaExceeded, false)],
       (⟨some "p", none, some 5, some 10⟩ : ConnState)) :=
  cooloff_window_quota.2 ⟨some "p", none, some 5, some 10⟩ 10 5 rfl rfl rfl
    [(6, .ok 1), (14, .error (.other "E"))] (by decide)

/-- C10: `set_path` assigns the path and clears the file handle but
leaves `last_conn_attempt` and `cool_time` unchanged; consequently the
facade's `open(path)` — `set_path` followed by `Connection::open` —
during an active cool-off window still fails with `QuotaExceeded`
without invoking the OS open routine, rather than bypassing the
throttle. -/
theorem set_path_frame_cooloff :
    (∀ (st : ConnState) (p : String),
      (connSetPath st p).path = some p ∧ (connSetPath st p).file = none ∧
      (connSetPath st p).last_conn_attempt = st.last_conn_attempt ∧
      (connSetPath st p).cool_time = st.cool_time) ∧
    (∀ (st : ConnState) (p : String) (now C t0 : Nat) (os : Except ErrKind Nat),
      st.cool_time = some C → st.last_conn_attempt = some t0 → now < t0 + C →
      arbiterOpen st p now os =
        (.error .quotaExceeded, connSetPath st p, false)) := by
  constructor
  · intro st p
    exact ⟨rfl, rfl, rfl, rfl⟩
  · intro st p now C t0 os hcool hlast hnow
    unfold arbiterOpen
    dsimp only
    rw [connOpen_quota (connSetPath st p) C t0 now os rfl hcool hlast hnow]

/-- Witness for `set_path_frame_cooloff`: opening a new path at `t = 7`
inside the window `[5, 15)` is throttled. -/
theorem set_path_frame_cooloff_witness :
    arbiterOpen ⟨some "old", none, some 5, some 10⟩ "new" 7 (.ok 9) =
      (.error .quotaExceeded,
       connSetPath ⟨some "old", none, some 5, some 10⟩ "new", false) :=
  set_path_frame_cooloff.2 ⟨some "old", none, some 5, some 10⟩ "new" 7 10 5
    (.ok 9) rfl rfl (by decide)

/-- Every error `port_poll` returns has a kind other than `TimedOut`:
the poll errnos and the revent-flag errors never map to it. -/
theorem port_poll_error_kind (k : PollKind) (dl : Option Nat) (sys : PollSys)
    (e : ErrKind) (h : port_poll k dl sys = .error e) : e ≠ .timedOut := by
  unfold port_poll at h
  cases sys with
  | fail e0 =>
    cases e0 <;> (injection h with h1; subst h1; simp [PollErrno.toErr])
  | zero => simp at h
  | ready r =>
    cases r with
    | none => simp at h
    | some rv =>
      dsimp only at h
      split_ifs at h <;>
        first
          | exact Except.noConfusion h
          | (injection h with h1; subst h1; simp)

/-- Every error `port_read` propagates has a kind other than
`Interrupted`, `TimedOut` and `WouldBlock`: those three are swallowed. -/
theorem port_read_error_kind : ∀ (evs : List ReadRes) (data b : List Nat)
    (e : ErrKind), port_read evs data = some (.error e, b) →
    ¬ (e = .interrupted ∨ e = .timedOut ∨ e = .wouldBlock) := by
  intro evs
  induction evs with
  | nil => intro data b e h; simp [port_read] at h
  | cons ev rest ih =>
    intro data b e h
    cases ev with
    | got bs =>
      simp only [port_read] at h
      by_cases hbs : bs.isEmpty = true
      · rw [if_pos hbs] at h; simp at h
      · rw [if_neg hbs] at h; exact ih _ _ _ h
    | rerr k =>
      simp only [port_read] at h
      by_cases hk : k = .interrupted ∨ k = .timedOut ∨ k = .wouldBlock
      · rw [if_pos hk] at h; simp at h
      · rw [if_neg hk] at h
        simp only [Option.some.injEq, Prod.mk.injEq, Except.error.injEq] at h
        obtain ⟨hke, -⟩ := h
        subst hke
        exact hk

/-- One unfolding step of the recv loop. -/
theorem port_recv_cons (s : RecvStep) (rest : List RecvStep) (buff : List Nat)
    (until_ deadline : Option Nat) :
    port_recv (s :: rest) buff until_ deadline =
      (match port_poll .forRead deadline s.poll with
       | .error e => some (.error e, buff)
       | .ok .timedOut => some (.ok (), buff)
       | .ok .readReady =>
         match port_read s.reads buff with
         | none => none
         | some (.error e, buff') => some (.error e, buff')
         | some (.ok _, buff') =>
           match until_ with
           | some d => if d ∈ buff' then some (.ok (), buff')
                       else port_recv rest buff' until_ deadline
           | none => port_recv rest buff' until_ deadline
       | .ok .writeReady =>
         match until_ with
         | some d => if d ∈ buff then some (.ok (), buff)
                     else port_recv rest buff until_ deadline
         | none => port_recv rest buff until_ deadline
       | .ok .undocumented =>
         match until_ with
         | some d => if d ∈ buff then some (.ok (), buff)
                     else port_recv rest buff until_ deadline
         | none => port_recv rest buff until_ deadline) := rfl

/-- The recv loop never produces a `TimedOut` error, whatever the
oracle reports. -/
theorem port_recv_no_timeout : ∀ (steps : List RecvStep) (buff : List Nat)
    (u dl : Option Nat) (res : Except ErrKind Unit) (b : List Nat),
    port_recv steps buff u dl = some (res, b) → res ≠ .error .timedOut := by
  intro steps
  induction steps with
  | nil => intro buff u dl res b h; exact Option.noConfusion h
  | cons s rest ih =>
    intro buff u dl res b h hres
    subst hres
    rw [port_recv_cons] at h
    cases hp : port_poll .forRead dl s.poll with
    | error e =>
      rw [hp] at h
      simp only [Option.some.injEq, Prod.mk.injEq, Except.error.injEq] at h
      exact port_poll_error_kind _ _ _ _ hp (by simp [h.1])
    | ok pr =>
      rw [hp] at h
      cases pr with
      | timedOut => simp at h
      | readReady =>
        cases hr : port_read s.reads buff with
        | none => rw [hr] at h; simp at h
        | some rb =>
          obtain ⟨rres, buff'⟩ := rb
          rw [hr] at h
          cases rres with
          | error e2 =>
            dsimp only at h
            simp only [Option.some.injEq, Prod.mk.injEq, Except.error.injEq] at h
            exact port_read_error_kind _ _ _ _ hr (Or.inr (Or.inl h.1))
          | ok u0 =>
            dsimp only at h
            cases u with
            | some d =>
              dsimp only at h
              by_cases hd : d ∈ buff'
              · rw [if_pos hd] at h; simp at h
              · rw [if_neg hd] at h; exact ih _ _ _ _ _ h rfl
            | none => dsimp only at h; exact ih _ _ _ _ _ h rfl
      | writeReady =>
        dsimp only at h
        cases u with
        | some d =>
          dsimp only at h
          by_cases hd : d ∈ buff
          · rw [if_pos hd] at h; simp at h
          · rw [if_neg hd] at h; exact ih _ _ _ _ _ h rfl
        | none => dsimp only at h; exact ih _ _ _ _ _ h rfl
      | undocumented =>
        dsimp only at h
        cases u with
        | some d =>
          dsimp only at h
          by_cases hd : d ∈ buff
          · rw [if_pos hd] at h; simp at h
          · rw [if_neg hd] at h; exact ih _ _ _ _ _ h rfl
        | none => dsimp only at h; exact ih _ _ _ _ _ h rfl

/-- C5: the recv loop never returns a timed-out error — any error it
returns has another kind; when poll reports `TimedOut` it returns
success immediately with the buffer as is, even if nothing was read;
and a Receive request with no delimiter, an empty staging buffer, an
open connection and an immediately-timed-out poll replies `Ok(None)`
rather than a `TimedOut` error. -/
theorem recv_never_timeout_error :
    (∀ (steps : List RecvStep) (buff : List Nat) (u dl : Option Nat)
       (res : Except ErrKind Unit) (b : List Nat),
      port_recv steps buff u dl = some (res, b) → res ≠ .error .timedOut) ∧
    (∀ (reads : List ReadRes) (rest : List RecvStep) (buff : List Nat)
       (u dl : Option Nat),
      port_recv (⟨PollSys.zero, reads⟩ :: rest) buff u dl = some (.ok (), buff)) ∧
    (∀ (conn : ConnState) (f : Nat) (dl : Option Nat) (now : Nat)
       (os : Except ErrKind Nat) (reads : List ReadRes),
      conn.file = some f →
      handleReceive conn [] none dl ⟨now, os, [⟨PollSys.zero, reads⟩]⟩ =
        some ⟨.ok none, conn, [], true, false, true⟩) := by
  refine ⟨port_recv_no_timeout, ?_, ?_⟩
  · intro reads rest buff u dl
    rfl
  · intro conn f dl now os reads hf
    unfold handleReceive handleReceiveSlow receive_from_port connOpen
    rw [hf]
    rfl

/-- Witness for `recv_never_timeout_error` at a concrete open state. -/
theorem recv_never_timeout_error_witness :
    handleReceive ⟨some "p", some 4, none, some 1000⟩ [] none none
        ⟨0, .ok 4, [⟨PollSys.zero, []⟩]⟩ =
      some ⟨.ok none, ⟨some "p", some 4, none, some 1000⟩, [], true, false, true⟩ :=
  recv_never_timeout_error.2.2 ⟨some "p", some 4, none, some 1000⟩ 4 none 0
    (.ok 4) [] rfl

/-- C2 fails on the code: with the connection closed (path set, no
pending attempt), the request-timeout branch of the Worker loop still
attempts to open the device — `receive_from_port(None, None)` is run
unconditionally and begins with `Connection::open`, which here invokes
the OS open routine. -/
theorem timeout_branch_opens_when_closed :
    connIsOpen ⟨some "/dev/ttyUSB0", none, none, some 1000⟩ = false ∧
    timeoutBranch ⟨some "/dev/ttyUSB0", none, none, some 1000⟩ []
        ⟨0, .ok 7, [⟨PollSys.zero, []⟩]⟩ =
      some (⟨some "/dev/ttyUSB0", some 7, none, some 1000⟩, [], true, true) :=
  ⟨rfl, rfl⟩

/-- A closed connection with a path set and no pending attempt always
invokes the OS open routine when `Connection::open` runs. -/
theorem connOpen_inv_true (conn : ConnState) (now : Nat)
    (os : Except ErrKind Nat) (p : String) (hf : conn.file = none)
    (hlast : conn.last_conn_attempt = none) (hp : conn.path = some p) :
    (connOpen conn now os).2.2 = true := by
  cases hc : conn.cool_time <;> cases os <;>
    simp [connOpen, hf, hlast, hc, hp]

/-- C2 amended: on the request-channel timeout the Worker always runs
`receive_from_port(None, None)`, which begins with `Connection::open`.
When the connection is open this performs the zero-deadline drain
without invoking the OS open routine; when it is closed with a path
set and no pending attempt, the branch attempts to open the device. -/
theorem timeout_branch_unconditional_drain :
    (∀ (conn : ConnState) (f : Nat) (buff : List Nat) (env : IOEnv)
       (conn' : ConnState) (buff' : List Nat) (inv polled : Bool),
      conn.file = some f →
      timeoutBranch conn buff env = some (conn', buff', inv, polled) →
      inv = false ∧ polled = true) ∧
    (∀ (conn : ConnState) (buff : List Nat) (env : IOEnv)
       (conn' : ConnState) (buff' : List Nat) (inv polled : Bool),
      conn.file = none → conn.path.isSome = true →
      conn.last_conn_attempt = none →
      timeoutBranch conn buff env = some (conn', buff', inv, polled) →
      inv = true) := by
  constructor
  · intro conn f buff env conn' buff' inv polled hf h
    unfold timeoutBranch receive_from_port connOpen at h
    rw [hf] at h
    dsimp only at h
    cases hr : port_recv env.recvSteps buff none none with
    | none => rw [hr] at h; simp at h
    | some rb =>
      obtain ⟨res, b⟩ := rb
      rw [hr] at h
      cases res with
      | ok u0 =>
        dsimp only at h
        simp only [Option.some.injEq, Prod.mk.injEq] at h
        exact ⟨h.2.2.1.symm, h.2.2.2.symm⟩
      | error e =>
        dsimp only at h
        simp only [Option.some.injEq, Prod.mk.injEq] at h
        exact ⟨h.2.2.1.symm, h.2.2.2.symm⟩
  · intro conn buff env conn' buff' inv polled hf hpath hlast h
    obtain ⟨p, hp⟩ := Option.isSome_iff_exists.mp hpath
    unfold timeoutBranch receive_from_port at h
    rcases hco : connOpen conn env.now env.osOpen with ⟨r, c1, i⟩
    have hi : i = true := by
      have h2 := connOpen_inv_true conn env.now env.osOpen p hf hlast hp
      rw [hco] at h2
      exact h2
    subst hi
    rw [hco] at h
    cases r with
    | error e =>
      dsimp only at h
      simp only [Option.some.injEq, Prod.mk.injEq] at h
      exact h.2.2.1.symm
    | ok fh =>
      dsimp only at h
      cases hr : port_recv env.recvSteps buff none none with
      | none => rw [hr] at h; simp at h
      | some rb =>
        obtain ⟨res, b⟩ := rb
        rw [hr] at h
        cases res with
        | ok u0 =>
          dsimp only at h
          simp only [Option.some.injEq, Prod.mk.injEq] at h
          exact h.2.2.1.symm
        | error e =>
          dsimp only at h
          simp only [Option.some.injEq, Prod.mk.injEq] at h
          exact h.2.2.1.symm

/-- Witness for `timeout_branch_unconditional_drain` at a closed
connection with a path set and cool-off disabled. -/
theorem timeout_branch_unconditional_drain_witness :
    timeoutBranch ⟨some "q", none, none, none⟩ []
        ⟨3, .ok 9, [⟨PollSys.zero, []⟩]⟩ =
      some (⟨some "q", some 9, none, none⟩, [], true, true) ∧
    (true : Bool) = true :=
  ⟨rfl, timeout_branch_unconditional_drain.2 ⟨some "q", none, none, none⟩ []
    ⟨3, .ok 9, [⟨PollSys.zero, []⟩]⟩ ⟨some "q", some 9, none, none⟩ [] true true
    rfl rfl rfl rfl⟩

/-- Any failing `Connection::open` leaves no file handle stored. -/
theorem connOpen_error_file (st : ConnState) (now : Nat)
    (os : Except ErrKind Nat) (e : ErrKind) (st' : ConnState) (inv : Bool)
    (h : connOpen st now os = (.error e, st', inv)) : st'.file = none := by
  unfold connOpen at h
  split at h
  · simp at h
  · rename_i hf
    dsimp only at h
    split at h
    · simp only [Prod.mk.injEq] at h
      obtain ⟨-, h2, -⟩ := h
      subst h2
      exact hf
    · split at h
      · simp only [Prod.mk.injEq] at h
        obtain ⟨-, h2, -⟩ := h
        subst h2
        split
        · exact hf
        · exact hf
      · split at h
        · simp at h
        · simp only [Prod.mk.injEq] at h
          obtain ⟨-, h2, -⟩ := h
          subst h2
          split
          · exact hf
          · exact hf

/-- C7 is false as stated for errors arising from the open attempt
itself: a Transmit serviced while the connection is closed, with the OS
open failing, yields an error reply although `Connection::close()` has
not run — `last_conn_attempt` is left set (here `some 0`) to drive the
cool-off, not cleared as a close would do. -/
theorem open_failure_keeps_last_attempt :
    transmit_to_port ⟨some "/dev/ttyACM0", none, none, some 1000⟩ [] [42] 5
        ⟨0, .error (.other "ENOENT"), []⟩ =
      some ⟨.error (.other "ENOENT"),
        ⟨some "/dev/ttyACM0", none, some 0, some 1000⟩, [], [], true⟩ ∧
    (⟨some "/dev/ttyACM0", none, some 0, some 1000⟩ : ConnState).last_conn_attempt
      ≠ none :=
  ⟨rfl, by simp⟩

/-- C7 amended: any error reply from servicing a Transmit or Receive
leaves the connection without a file handle, so `is_open()` returns
false until a successful reopen; and whenever the connection had
actually been opened (the error came from the device I/O itself), the
Worker has run `Connection::close()`, which also clears
`last_conn_attempt`.  Only open-attempt failures skip the close, and
they leave `last_conn_attempt` set for the cool-off. -/
theorem io_error_closes_connection :
    (∀ (conn : ConnState) (buff data : List Nat) (dl : Nat) (env : SendEnv)
       (e : ErrKind) (o : SendOutcome),
      transmit_to_port conn buff data dl env = some o → o.result = .error e →
      o.conn.file = none ∧ connIsOpen o.conn = false) ∧
    (∀ (conn : ConnState) (buff : List Nat) (u dl : Option Nat) (env : IOEnv)
       (e : ErrKind) (o : IOOutcome),
      receive_from_port conn buff u dl env = some o → o.result = .error e →
      o.conn.file = none ∧ connIsOpen o.conn = false) ∧
    (∀ (conn : ConnState) (f : Nat) (buff data : List Nat) (dl : Nat)
       (env : SendEnv) (e : ErrKind) (o : SendOutcome), conn.file = some f →
      transmit_to_port conn buff data dl env = some o → o.result = .error e →
      o.conn = connClose conn) ∧
    (∀ (conn : ConnState) (f : Nat) (buff : List Nat) (u dl : Option Nat)
       (env : IOEnv) (e : ErrKind) (o : IOOutcome), conn.file = some f →
      receive_from_port conn buff u dl env = some o → o.result = .error e →
      o.conn = connClose conn) := by
  refine ⟨?_, ?_, ?_, ?_⟩
  · intro conn buff data dl env e o h hres
    unfold transmit_to_port at h
    rcases hco : connOpen conn env.now env.osOpen with ⟨r, c1, i⟩
    rw [hco] at h
    cases r with
    | error e1 =>
      dsimp only at h
      simp only [Option.some.injEq] at h
      subst h
      have hfn := connOpen_error_file conn env.now env.osOpen e1 c1 i hco
      exact ⟨hfn, by simp [connIsOpen, hfn]⟩
    | ok fh =>
      dsimp only at h
      cases hs : port_send env.steps data buff dl with
      | none => rw [hs] at h; simp at h
      | some sr =>
        obtain ⟨res, b, w⟩ := sr
        rw [hs] at h
        cases res with
        | ok u0 =>
          dsimp only at h
          simp only [Option.some.injEq] at h
          subst h
          simp at hres
        | error e2 =>
          dsimp only at h
          simp only [Option.some.injEq] at h
          subst h
          exact ⟨rfl, rfl⟩
  · intro conn buff u dl env e o h hres
    unfold receive_from_port at h
    rcases hco : connOpen conn env.now env.osOpen with ⟨r, c1, i⟩
    rw [hco] at h
    cases r with
    | error e1 =>
      dsimp only at h
      simp only [Option.some.injEq] at h
      subst h
      have hfn := connOpen_error_file conn env.now env.osOpen e1 c1 i hco
      exact ⟨hfn, by simp [connIsOpen, hfn]⟩
    | ok fh =>
      dsimp only at h
      cases hr : port_recv env.recvSteps buff u dl with
      | none => rw [hr] at h; simp at h
      | some rb =>
        obtain ⟨res, b⟩ := rb
        rw [hr] at h
        cases res with
        | ok u0 =>
          dsimp only at h
          simp only [Option.some.injEq] at h
          subst h
          simp at hres
        | error e2 =>
          dsimp only at h
          simp only [Option.some.injEq] at h
          subst h
          exact ⟨rfl, rfl⟩
  · intro conn f buff data dl env e o hf h hres
    unfold transmit_to_port connOpen at h
    rw [hf] at h
    dsimp only at h
    cases hs : port_send env.steps data buff dl with
    | none => rw [hs] at h; simp at h
    | some sr =>
      obtain ⟨res, b, w⟩ := sr
      rw [hs] at h
      cases res with
      | ok u0 =>
        dsimp only at h
        simp only [Option.some.injEq] at h
        subst h
        simp at hres
      | error e2 =>
        dsimp only at h
        simp only [Option.some.injEq] at h
        subst h
        rfl
  · intro conn f buff u dl env e o hf h hres
    unfold receive_from_port connOpen at h
    rw [hf] at h
    dsimp only at h
    cases hr : port_recv env.recvSteps buff u dl with
    | none => rw [hr] at h; simp at h
    | some rb =>
      obtain ⟨res, b⟩ := rb
      rw [hr] at h
      cases res with
      | ok u0 =>
        dsimp only at h
        simp only [Option.some.injEq] at h
        subst h
        simp at hres
      | error e2 =>
        dsimp only at h
        simp only [Option.some.injEq] at h
        subst h
        rfl

/-- Witness for `io_error_closes_connection`: a POLLHUP during
`port_send` on an open connection makes the Worker close it. -/
theorem io_error_closes_connection_witness :
    transmit_to_port ⟨some "p", some 2, none, some 50⟩ [] [1] 5
        ⟨0, .ok 2, [⟨PollSys.ready (some ⟨true, false, false, false, false,
          false, false, false, false, false⟩), [], .wrote 0, 0⟩]⟩ =
      some ⟨.error (.other "POLLHUP: Device has been disconnected"),
        connClose ⟨some "p", some 2, none, some 50⟩, [], [], false⟩ ∧
    (⟨.error (.other "POLLHUP: Device has been disconnected"),
        connClose ⟨some "p", some 2, none, some 50⟩, [], [], false⟩
      : SendOutcome).conn = connClose ⟨some "p", some 2, none, some 50⟩ :=
  ⟨rfl, io_error_closes_connection.2.2.1 ⟨some "p", some 2, none, some 50⟩ 2
    [] [1] 5
    ⟨0, .ok 2, [⟨PollSys.ready (some ⟨true, false, false, false, false,
      false, false, false, false, false⟩), [], .wrote 0, 0⟩]⟩
    (.other "POLLHUP: Device has been disconnected")
    ⟨.error (.other "POLLHUP: Device has been disconnected"),
      connClose ⟨some "p", some 2, none, some 50⟩, [], [], false⟩
    rfl rfl rfl⟩

/-- One unfolding step of the send loop. -/
theorem port_send_go_cons (s : SendStep) (rest : List SendStep)
    (send recv : List Nat) (deadline : Nat) (wire : List Nat) :
    port_send_go (s :: rest) send recv deadline wire =
      (match port_poll .forWrite (some deadline) s.poll with
       | .error e => some (.error e, recv, wire)
       | .ok .timedOut =>
         if send.isEmpty then some (.ok (), recv, wire)
         else if deadline ≤ s.nowAfter then some (.error .timedOut, recv, wire)
         else port_send_go rest send recv deadline wire
       | .ok .readReady =>
         match port_read s.reads recv with
         | none => none
         | some (.error e, recv') => some (.error e, recv', wire)
         | some (.ok _, recv') =>
           if send.isEmpty then some (.ok (), recv', wire)
           else if deadline ≤ s.nowAfter then some (.error .timedOut, recv', wire)
           else port_send_go rest send recv' deadline wire
       | .ok .writeReady =>
         match port_write s.write send with
         | .error e => some (.error e, recv, wire)
         | .ok (written, remaining) =>
           if remaining.isEmpty then some (.ok (), recv, wire ++ written)
           else if deadline ≤ s.nowAfter then
             some (.error .timedOut, recv, wire ++ written)
           else port_send_go rest remaining recv deadline (wire ++ written)
       | .ok .undocumented =>
         if send.isEmpty then some (.ok (), recv, wire)
         else if deadline ≤ s.nowAfter then some (.error .timedOut, recv, wire)
         else port_send_go rest send recv deadline wire) := rfl

/-- A successful single write attempt splits the payload: written
prefix plus remainder is the original deque. -/
theorem port_write_append (w : WriteRes) (data a b : List Nat)
    (h : port_write w data = .ok (a, b)) : a ++ b = data := by
  cases w with
  | wrote n =>
    unfold port_write at h
    simp only [Except.ok.injEq, Prod.mk.injEq] at h
    rw [← h.1, ← h.2]
    exact List.take_append_drop n data
  | werr k =>
    unfold port_write at h
    dsimp only at h
    by_cases hk : k = .interrupted ∨ k = .timedOut ∨ k = .wouldBlock
    · rw [if_pos hk] at h
      simp only [Except.ok.injEq, Prod.mk.injEq] at h
      rw [← h.1, ← h.2]
      rfl
    · rw [if_neg hk] at h
      exact Except.noConfusion h

/-- On success the send loop's wire trace is the accumulator followed
by the whole payload. -/
theorem port_send_go_ok_wire : ∀ (steps : List SendStep)
    (send recv : List Nat) (dl : Nat) (wire r w : List Nat),
    port_send_go steps send recv dl wire = some (.ok (), r, w) →
    w = wire ++ send := by
  intro steps
  induction steps with
  | nil => intro send recv dl wire r w h; exact Option.noConfusion h
  | cons s rest ih =>
    intro send recv dl wire r w h
    rw [port_send_go_cons] at h
    cases hp : port_poll .forWrite (some dl) s.poll with
    | error e => rw [hp] at h; simp at h
    | ok pr =>
      rw [hp] at h
      cases pr with
      | timedOut =>
        dsimp only at h
        by_cases hse : send.isEmpty = true
        · rw [if_pos hse] at h
          injection h with h1
          injection h1 with ha hb
          injection hb with hc hd
          rw [← hd, List.isEmpty_iff.mp hse]
          simp
        · rw [if_neg hse] at h
          by_cases hdl : dl ≤ s.nowAfter
          · rw [if_pos hdl] at h; simp at h
          · rw [if_neg hdl] at h; exact ih _ _ _ _ _ _ h
      | readReady =>
        cases hr : port_read s.reads recv with
        | none => rw [hr] at h; exact Option.noConfusion h
        | some rb =>
          obtain ⟨res, recv'⟩ := rb
          rw [hr] at h
          cases res with
          | error e2 => dsimp only at h; simp at h
          | ok u0 =>
            dsimp only at h
            by_cases hse : send.isEmpty = true
            · rw [if_pos hse] at h
              injection h with h1
              injection h1 with ha hb
              injection hb with hc hd
              rw [← hd, List.isEmpty_iff.mp hse]
              simp
            · rw [if_neg hse] at h
              by_cases hdl : dl ≤ s.nowAfter
              · rw [if_pos hdl] at h; simp at h
              · rw [if_neg hdl] at h; exact ih _ _ _ _ _ _ h
      | writeReady =>
        cases hw : port_write s.write send with
        | error e2 => rw [hw] at h; simp at h
        | ok wr =>
          obtain ⟨written, remaining⟩ := wr
          rw [hw] at h
          dsimp only at h
          have hsplit := port_write_append s.write send written remaining hw
          by_cases hre : remaining.isEmpty = true
          · rw [if_pos hre] at h
            injection h with h1
            injection h1 with ha hb
            injection hb with hc hd
            rw [← hd, ← hsplit, List.isEmpty_iff.mp hre]
            simp
          · rw [if_neg hre] at h
            by_cases hdl : dl ≤ s.nowAfter
            · rw [if_pos hdl] at h; simp at h
            · rw [if_neg hdl] at h
              have := ih _ _ _ _ _ _ h
              rw [this, ← hsplit, List.append_assoc]
      | undocumented =>
        dsimp only at h
        by_cases hse : send.isEmpty = true
        · rw [if_pos hse] at h
          injection h with h1
          injection h1 with ha hb
          injection hb with hc hd
          rw [← hd, List.isEmpty_iff.mp hse]
          simp
        · rw [if_neg hse] at h
          by_cases hdl : dl ≤ s.nowAfter
          · rw [if_pos hdl] at h; simp at h
          · rw [if_neg hdl] at h; exact ih _ _ _ _ _ _ h

/-- C6: the send loop's post-iteration checks test the payload first —
an emptied payload returns success even when the deadline has already
passed — and only then the deadline, returning a `TimedOut` error when
bytes remain; so with a past deadline a single poll/write attempt that
leaves bytes unwritten yields `TimedOut` (also when the poll itself
timed out and nothing was written), and success is returned only when
every payload byte was written — the wire trace of a successful call is
exactly the payload. -/
theorem send_deadline_policy :
    (∀ (steps : List SendStep) (send recv : List Nat) (dl : Nat)
       (r w : List Nat),
      port_send steps send recv dl = some (.ok (), r, w) → w = send) ∧
    (∀ (s : SendStep) (rest : List SendStep) (send recv : List Nat) (dl : Nat)
       (written remaining : List Nat),
      port_poll .forWrite (some dl) s.poll = .ok .writeReady →
      port_write s.write send = .ok (written, remaining) → remaining = [] →
      port_send (s :: rest) send recv dl = some (.ok (), recv, written)) ∧
    (∀ (s : SendStep) (rest : List SendStep) (send recv : List Nat) (dl : Nat)
       (written remaining : List Nat),
      port_poll .forWrite (some dl) s.poll = .ok .writeReady →
      port_write s.write send = .ok (written, remaining) → remaining ≠ [] →
      dl ≤ s.nowAfter →
      port_send (s :: rest) send recv dl =
        some (.error .timedOut, recv, written)) ∧
    (∀ (s : SendStep) (rest : List SendStep) (send recv : List Nat) (dl : Nat),
      port_poll .forWrite (some dl) s.poll = .ok .timedOut → send ≠ [] →
      dl ≤ s.nowAfter →
      port_send (s :: rest) send recv dl =
        some (.error .timedOut, recv, [])) := by
  refine ⟨?_, ?_, ?_, ?_⟩
  · intro steps send recv dl r w h
    have h2 := port_send_go_ok_wire steps send recv dl [] r w h
    simpa using h2
  · intro s rest send recv dl written remaining hp hw hre
    unfold port_send
    rw [port_send_go_cons, hp]
    dsimp only
    rw [hw]
    dsimp only
    rw [if_pos (by simp [hre])]
    simp
  · intro s rest send recv dl written remaining hp hw hre hdl
    unfold port_send
    rw [port_send_go_cons, hp]
    dsimp only
    rw [hw]
    dsimp only
    rw [if_neg (by simpa [List.isEmpty_iff] using hre), if_pos hdl]
    simp
  · intro s rest send recv dl hp hse hdl
    unfold port_send
    rw [port_send_go_cons, hp]
    dsimp only
    rw [if_neg (by simpa [List.isEmpty_iff] using hse), if_pos hdl]

/-- Witness for `send_deadline_policy`: past deadline, one write gets
one of two bytes out, the call reports `TimedOut`. -/
theorem send_deadline_policy_witness :
    port_send [⟨PollSys.ready (some ⟨false, false, false, true, false, false,
        false, false, false, false⟩), [], .wrote 1, 9⟩] [1, 2] [] 5 =
      some (.error .timedOut, [], [1]) :=
  send_deadline_policy.2.2.1
    ⟨PollSys.ready (some ⟨false, false, false, true, false, false,
      false, false, false, false⟩), [], .wrote 1, 9⟩
    [] [1, 2] [] 5 [1] [2] rfl rfl (by decide) (by decide)

/-- Empty request list: the Worker is idle. -/
theorem workerTransmits_nil (conn : ConnState) (buff : List Nat) :
    workerTransmits conn buff [] = some ([], conn, buff, []) := rfl

/-- One servicing step of the Worker's Transmit handling. -/
theorem workerTransmits_cons (conn : ConnState) (buff data : List Nat)
    (dl : Nat) (env : SendEnv) (rest : List (List Nat × Nat × SendEnv)) :
    workerTransmits conn buff ((data, dl, env) :: rest) =
      (match transmit_to_port conn buff data dl env with
       | none => none
       | some o =>
         match workerTransmits o.conn o.buff rest with
         | none => none
         | some (rs, c, b2, w) => some (o.result :: rs, c, b2, o.wire ++ w)) :=
  rfl

/-- A successful `transmit_to_port` puts exactly its payload on the
wire. -/
theorem transmit_ok_wire (conn : ConnState) (buff data : List Nat) (dl : Nat)
    (env : SendEnv) (o : SendOutcome)
    (h : transmit_to_port conn buff data dl env = some o)
    (hres : o.result = .ok ()) : o.wire = data := by
  unfold transmit_to_port at h
  rcases hco : connOpen conn env.now env.osOpen with ⟨r, c1, i⟩
  rw [hco] at h
  cases r with
  | error e1 =>
    dsimp only at h
    simp only [Option.some.injEq] at h
    subst h
    simp at hres
  | ok fh =>
    dsimp only at h
    cases hs : port_send env.steps data buff dl with
    | none => rw [hs] at h; simp at h
    | some sr =>
      obtain ⟨res, b, w⟩ := sr
      rw [hs] at h
      cases res with
      | ok u0 =>
        dsimp only at h
        simp only [Option.some.injEq] at h
        subst h
        cases u0
        have hw := port_send_go_ok_wire env.steps data buff dl [] b w
          (by simpa [port_send] using hs)
        simpa using hw
      | error e2 =>
        dsimp only at h
        simp only [Option.some.injEq] at h
        subst h
        simp at hres

/-- Two Transmits served in sequence put payloads on the wire in
request order when both succeed. -/
theorem workerTransmits_pair (conn : ConnState) (buff x : List Nat) (dx : Nat)
    (ex : SendEnv) (y : List Nat) (dy : Nat) (ey : SendEnv)
    (rs : List (Except ErrKind Unit)) (c : ConnState) (bf w : List Nat)
    (h : workerTransmits conn buff [(x, dx, ex), (y, dy, ey)] =
      some (rs, c, bf, w))
    (hok : ∀ r ∈ rs, r = .ok ()) : w = x ++ y := by
  rw [workerTransmits_cons] at h
  cases h1 : transmit_to_port conn buff x dx ex with
  | none => rw [h1] at h; exact Option.noConfusion h
  | some o1 =>
    rw [h1] at h
    dsimp only at h
    rw [workerTransmits_cons] at h
    cases h2 : transmit_to_port o1.conn o1.buff y dy ey with
    | none => rw [h2] at h; exact Option.noConfusion h
    | some o2 =>
      rw [h2] at h
      dsimp only at h
      rw [workerTransmits_nil] at h
      dsimp only at h
      injection h with hinj
      injection hinj with hrs htail
      injection htail with hc2 htail2
      injection htail2 with hbf hw
      have hr1 : o1.result = .ok () := hok o1.result (by rw [← hrs]; simp)
      have hr2 : o2.result = .ok () := hok o2.result (by rw [← hrs]; simp)
      have hw1 := transmit_ok_wire conn buff x dx ex o1 h1 hr1
      have hw2 := transmit_ok_wire o1.conn o1.buff y dy ey o2 h2 hr2
      rw [← hw, hw1, hw2]
      simp

/-- C8: two Transmit requests issued by concurrent callers reach the
single Worker one after the other through the zero-capacity rendezvous
channel, in one of the two delivery orders; when both replies are `Ok`,
the byte stream on the wire is exactly `a ++ b` or exactly `b ++ a` —
the payloads are never interleaved. -/
theorem transmits_never_interleave (conn : ConnState) (buff a b : List Nat)
    (dl1 dl2 : Nat) (e1 e2 : SendEnv) (rs : List (Except ErrKind Unit))
    (c : ConnState) (bf w : List Nat)
    (h : workerTransmits conn buff [(a, dl1, e1), (b, dl2, e2)] =
        some (rs, c, bf, w) ∨
      workerTransmits conn buff [(b, dl2, e2), (a, dl1, e1)] =
        some (rs, c, bf, w))
    (hok : ∀ x ∈ rs, x = .ok ()) :
    w = a ++ b ∨ w = b ++ a := by
  cases h with
  | inl h1 =>
    exact Or.inl (workerTransmits_pair conn buff a dl1 e1 b dl2 e2 rs c bf w h1 hok)
  | inr h2 =>
    exact Or.inr (workerTransmits_pair conn buff b dl2 e2 a dl1 e1 rs c bf w h2 hok)

/-- Witness for `transmits_never_interleave`: two concrete transmits on
an open connection, wire is the first payload then the second. -/
theorem transmits_never_interleave_witness :
    ([10, 11, 20] : List Nat) = [10, 11] ++ [20] ∨
      ([10, 11, 20] : List Nat) = [20] ++ [10, 11] :=
  transmits_never_interleave ⟨some "p", some 1, none, some 50⟩ [] [10, 11] [20]
    5 5
    ⟨0, .ok 1, [⟨PollSys.ready (some ⟨false, false, false, true, false, false,
      false, false, false, false⟩), [], .wrote 2, 0⟩]⟩
    ⟨0, .ok 1, [⟨PollSys.ready (some ⟨false, false, false, true, false, false,
      false, false, false, false⟩), [], .wrote 1, 0⟩]⟩
    [.ok (), .ok ()] ⟨some "p", some 1, none, some 50⟩ [] [10, 11, 20]
    (Or.inl rfl)
    (by intro x hx
        simp only [List.mem_cons, List.not_mem_nil, or_false] at hx
        rcases hx with rfl | rfl <;> rfl)
